import Mathlib

/-!
Verification development for `Source/BBS_Steam_Account_Fix.py`.

The script is a linear Windows orchestration of `reg`, `vssadmin` and
`winreg` calls around pure text processing.  We shallow-embed it as
follows:

* text is `List Char` (`Str`); the Python string operations used by the
  script (`str.replace`, `str.split`, `str.splitlines`, `str.strip`,
  `startswith`, `endswith`, `in`) are translated as executable functions
  on `Str`;
* every external side effect (prints, `reg` / `vssadmin` / `whoami`
  subprocess invocations, `winreg.SetValueEx`, file writes and removals)
  is an explicit `Effect` value, and each Python function becomes a pure
  Lean function from its inputs (an explicit world: file contents,
  mounted-hive contents, command outcomes) to its result together with
  the list of effects it performs, in order;
* instants are UTC epoch seconds (`Int`): an aware UTC `datetime` and
  its POSIX timestamp compare identically, so
  `datetime.fromtimestamp(m, timezone.utc) < CUTOFF_DATETIME` is
  `m < CUTOFF_EPOCH`; the locale/timezone-dependent
  `strptime`/`astimezone` pair of the VSS parser is an oracle parameter
  `parse : Str → Option Int` returning the UTC-converted instant.
-/

abbrev Str := List Char

/-- Python global `OLD_VALUE_NAME = r"224515408_h90860828"`. -/
def OLD_VALUE_NAME : Str := "224515408_h90860828".toList

/-- Python global `NEW_VALUE_NAME = r"-907038497_h2948477015"`. -/
def NEW_VALUE_NAME : Str := "-907038497_h2948477015".toList

/-- Python global `OUTPUT_REG_FILE` (the `os.path.abspath` base name). -/
def OUTPUT_REG_FILE : String := "BleachBraveSouls_from_VSS_PostUpdate_Fix.reg"

/-- Python global `LIVE_BACKUP_FILE`. -/
def LIVE_BACKUP_FILE : String := "BleachBraveSouls_PostUpdate_Original.reg"

/-- Python global `SNAPSHOT_EXPORT_FILE`. -/
def SNAPSHOT_EXPORT_FILE : String := "BleachBraveSouls_FromVSS.reg"

/-- Output path written by `process_regfile`. -/
def REGFILE_FIX_OUTPUT : String := "BleachBraveSouls_from_REGBackup_File_PostUpdate_Fix.reg"

/-- Python global `CUTOFF_DATETIME = datetime(2025, 10, 4, 9, 10, 16, tzinfo=utc)` as UTC
epoch seconds: 2025-10-04 09:10:16 UTC = 1759569016. -/
def CUTOFF_EPOCH : Int := 1759569016

/-- The line `f"[HKEY_CURRENT_USER\\{TARGET_REL_PATH}]"` used both as the
presence test of `process_regfile` and as the rewritten header of
`export_and_save`. -/
def HKCU_KEY_LINE : Str := "[HKEY_CURRENT_USER\\Software\\KLab\\BleachBraveSouls]".toList

/-- The exported header `rf"[HKEY_USERS\{TEMP_MOUNT_NAME}\{TARGET_REL_PATH}]"`
that `export_and_save` replaces. -/
def HKU_HEADER : Str := "[HKEY_USERS\\TempHive\\Software\\KLab\\BleachBraveSouls]".toList

/-- The marker `f"\"{OLD_VALUE_NAME}\"="` that opens a value block in
`export_and_save`. -/
def BLOCK_MARK : Str := ('"' :: OLD_VALUE_NAME) ++ ['"', '=']

/-- Python whitespace stripped by `str.strip()` (ASCII part). -/
def pyIsSpace (c : Char) : Bool :=
  c == ' ' || c == '\t' || c == '\n' || c == '\r' || c == '\x0b' || c == '\x0c'

/-- Python `s.strip()`. -/
def pyStrip (s : Str) : Str :=
  ((s.dropWhile pyIsSpace).reverse.dropWhile pyIsSpace).reverse

/-- One step of Python `str.replace`: fuelled scan replacing each leftmost,
non-overlapping occurrence of `needle` by `repl`.  The fuel only needs to
dominate the length of the string (each step consumes at least one
character), and `pyReplace` supplies exactly that. -/
def pyReplaceAux (needle repl : Str) : Nat → Str → Str
  | _, [] => []
  | 0, s => s
  | fuel + 1, c :: rest =>
    if !needle.isEmpty && needle.isPrefixOf (c :: rest) then
      repl ++ pyReplaceAux needle repl fuel (List.drop needle.length (c :: rest))
    else
      c :: pyReplaceAux needle repl fuel rest

/-- Python `s.replace(needle, repl)` (for the non-empty needles the script
uses). -/
def pyReplace (needle repl s : Str) : Str :=
  pyReplaceAux needle repl s.length s

/-- Python substring test `needle in s`. -/
def occursB (needle : Str) : Str → Bool
  | [] => needle.isEmpty
  | c :: rest => needle.isPrefixOf (c :: rest) || occursB needle rest

/-- Python `s.split(sep)` (fuelled like `pyReplaceAux`). -/
def pySplitAux (sep : Str) : Nat → Str → List Str
  | _, [] => [[]]
  | 0, s => [s]
  | fuel + 1, c :: rest =>
    if !sep.isEmpty && sep.isPrefixOf (c :: rest) then
      [] :: pySplitAux sep fuel (List.drop sep.length (c :: rest))
    else
      match pySplitAux sep fuel rest with
      | [] => [[c]]
      | l :: ls => (c :: l) :: ls

/-- Python `s.split(sep)` for a non-empty separator. -/
def pySplit (sep s : Str) : List Str :=
  pySplitAux sep s.length s

/-- Line-boundary characters of Python `str.splitlines`. -/
def isLineBreak (c : Char) : Bool :=
  c == '\n' || c == '\r' || c == '\x0b' || c == '\x0c' ||
  c == '\x1c' || c == '\x1d' || c == '\x1e' || c == '\x85' ||
  c == '\u2028' || c == '\u2029'

/-- Python `s.splitlines()` (no trailing empty line, `\r\n` is a single
boundary). -/
def splitlines : Str → List Str
  | [] => []
  | '\r' :: '\n' :: rest => [] :: splitlines rest
  | c :: rest =>
    if isLineBreak c then [] :: splitlines rest
    else
      match splitlines rest with
      | [] => [[c]]
      | l :: ls => (c :: l) :: ls

/-- Python `"\n".join(lines)`. -/
def joinLines : List Str → Str
  | [] => []
  | [l] => l
  | l :: ls => l ++ '\n' :: joinLines ls

/-- Test `line.strip().startswith(f"\"{OLD_VALUE_NAME}\"=")` of
`export_and_save`. -/
def isBlockStart (l : Str) : Bool := BLOCK_MARK.isPrefixOf (pyStrip l)

/-- Test `lines[j].strip().endswith("\\")` of `export_and_save`'s inner
continuation loop. -/
def isContLine (l : Str) : Bool := ['\\'].isSuffixOf (pyStrip l)

/-- Python `"\n".join(block_lines).replace(OLD_VALUE_NAME, NEW_VALUE_NAME)`: the
duplicated copy of a captured block. -/
def dupBlock (blk : List Str) : Str :=
  pyReplace OLD_VALUE_NAME NEW_VALUE_NAME (joinLines blk)

/-- The `while i < len(lines)` loop of `export_and_save` (lines 245-268 of
the script), recursion-ified.  The first argument is the currently open
block (the block-start line plus the continuation lines captured so far,
in order); it is non-empty exactly while the Python code is inside the
inner `while ... endswith("\\")` loop. -/
def dupAux : List Str → List Str → List Str
  | blk, [] => if blk.isEmpty then [] else [dupBlock blk]
  | blk, l :: rest =>
    if blk.isEmpty then
      l :: dupAux (if isBlockStart l then [l] else []) rest
    else if isContLine l then
      l :: dupAux (blk ++ [l]) rest
    else
      dupBlock blk :: l :: dupAux (if isBlockStart l then [l] else []) rest

/-- The whole line-rewriting pass of `export_and_save`: duplicate each
`OLD_VALUE_NAME` block under `NEW_VALUE_NAME`. -/
def dupBlocks (lines : List Str) : List Str := dupAux [] lines

/-- The pure text transformation of `export_and_save`: header rewrite,
then the duplication pass, re-joined with `"\n"`. -/
def exportFixText (data : Str) : Str :=
  joinLines (dupBlocks (splitlines (pyReplace HKU_HEADER HKCU_KEY_LINE data)))

/-- A multi-line hex value block as `reg export` emits it: every line but
the last ends in a backslash. -/
def hexLine1 : Str := "\"224515408_h90860828\"=hex:01,02,\\".toList

/-- Second line of the sample hex block (still continued). -/
def hexLine2 : Str := "  03,04,\\".toList

/-- Terminating line of the sample hex block (no trailing backslash). -/
def hexLine3 : Str := "  05,06".toList

/-- Claim C1 (code bug): on a multi-line hex block the duplication loop of
`export_and_save` captures only the lines that themselves end in a
backslash, so the terminating data line (`hexLine3`) is left out of the
captured block and the (truncated) duplicate is inserted before it; the
output is not the original block followed by a complete renamed copy, as
the claim (and the code's own "Capture the full block" comment) state. -/
theorem C1_hex_block_truncated :
    dupBlocks [hexLine1, hexLine2, hexLine3]
      = [hexLine1, hexLine2, dupBlock [hexLine1, hexLine2], hexLine3]
    ∧ dupBlocks [hexLine1, hexLine2, hexLine3]
      ≠ [hexLine1, hexLine2, hexLine3, dupBlock [hexLine1, hexLine2, hexLine3]] := by
  exact ⟨by decide, by decide⟩

/-- Print statements of the script, one constructor per `print` site (with
the interpolated data the site depends on). -/
inductive Msg where
  | notWindows
  | runAsAdmin
  | runningMode (live : Bool)
  | sidError
  | backedUpLive
  | failedBackupLive
  | regFileMissing
  | keyLineNotFound
  | fixedRegExported
  | mergedRegfile
  | skippingRP (mtime : Int)
  | noRPBeforeCutoff
  | noSuitableRP
  | fixedRegCreated
  | mergedKey
  | failedExportSnapshot
  | vssWarnParse (ds : Str)
  | vssDebug (path : Str) (t : Int)
  | noValidVss
  | foundNtuser (shadow : Str)
  | noSuitableVss
  | errorAccessSnapshot (shadow : Str)
  | keyNotFoundAnywhere
deriving DecidableEq

/-- Observable side effects of the script, in program order. -/
inductive Effect where
  | print (m : Msg)
  | removeFile (path : String)
  | runWhoami
  | regExportCmd (file : String)
  | regImportCmd (file : String)
  | writeFile (path : String) (content : Str)
  | setValueEx (name : Str) (vtype : Nat) (val : Str)
  | regLoadCmd
  | regUnloadCmd
  | runVssAdmin
deriving DecidableEq

/-- Values of a mounted registry key: association list
name ↦ (type, data), the view `winreg` gives of
`HKU\TempHive\Software\KLab\BleachBraveSouls`. -/
abbrev Vals := List (Str × Nat × Str)

/-- Python `winreg.QueryValueEx(key, name)` on the mounted key. -/
def lookupVal : Vals → Str → Option (Nat × Str)
  | [], _ => none
  | (n, vt, v) :: rest, name => if n = name then some (vt, v) else lookupVal rest name

/-- Function `modify_hive_value` (script lines 210-224).  The world argument is the
mounted hive's target key: `none` when `winreg.OpenKey` raises
`FileNotFoundError` (key absent); otherwise its values.  A missing
`OLD_VALUE_NAME` makes `QueryValueEx` raise `FileNotFoundError`.  In live
mode the successful read is followed by `SetValueEx` under
`NEW_VALUE_NAME`. -/
def modify_hive_value (sim : Bool) (hive : Option Vals) : Bool × List Effect :=
  match hive with
  | none => (false, [])
  | some vals =>
    match lookupVal vals OLD_VALUE_NAME with
    | none => (false, [])
    | some (vt, v) => (true, if !sim then [Effect.setValueEx NEW_VALUE_NAME vt v] else [])

/-- Function `backup_live_hkcu_key` (lines 60-67): runs `reg export` of the live key
to `LIVE_BACKUP_FILE` and prints success or failure. -/
def backup_live_hkcu_key (ok : Bool) : List Effect :=
  [Effect.regExportCmd LIVE_BACKUP_FILE,
   Effect.print (if ok then Msg.backedUpLive else Msg.failedBackupLive)]

/-- Function `process_regfile` (lines 71-106).  `isFile` is `os.path.isfile`, `data`
the decoded file text.  Returns the Python return value and the effects. -/
def process_regfile (sim isFile : Bool) (data : Str) (liveBackupOk : Bool) :
    Bool × List Effect :=
  if !isFile then (false, [Effect.print Msg.regFileMissing])
  else if !occursB HKCU_KEY_LINE data then (false, [Effect.print Msg.keyLineNotFound])
  else
    (true,
      backup_live_hkcu_key liveBackupOk
      ++ [Effect.writeFile REGFILE_FIX_OUTPUT (pyReplace OLD_VALUE_NAME NEW_VALUE_NAME data),
          Effect.print Msg.fixedRegExported]
      ++ (if !sim then [Effect.regImportCmd REGFILE_FIX_OUTPUT, Effect.print Msg.mergedRegfile]
          else []))

/-- Function `export_and_save` (lines 226-280).  `exportOk` is whether
`reg export HKU\TempHive\... SNAPSHOT_EXPORT_FILE` succeeded and
`exportText` the text it produced; on success the fixed text is written to
`OUTPUT_REG_FILE` and, in live mode, `reg import`ed. -/
def export_and_save (sim exportOk : Bool) (exportText : Str) : Bool × List Effect :=
  if !exportOk then
    (false, [Effect.regExportCmd SNAPSHOT_EXPORT_FILE, Effect.print Msg.failedExportSnapshot])
  else
    (true,
      [Effect.regExportCmd SNAPSHOT_EXPORT_FILE,
       Effect.writeFile OUTPUT_REG_FILE (exportFixText exportText),
       Effect.print Msg.fixedRegCreated]
      ++ (if !sim then [Effect.regImportCmd OUTPUT_REG_FILE, Effect.print Msg.mergedKey]
          else []))

/-- Function `is_admin` (lines 40-44): `ctypes.windll.shell32.IsUserAnAdmin() != 0`,
with any exception (`callOk = false`) yielding `False`. -/
def is_admin (callOk : Bool) (ret : Int) : Bool :=
  if callOk then ret != 0 else false

/-- One candidate of `find_restore_point_snapshot_dirs` together with the
world facts the search needs about it: the directory's raw
`os.path.getmtime` (epoch seconds), whether `find_user_hive_in_snapshot`
finds a hive file for the SID, whether `reg load` succeeds on it, the
mounted key contents, and the outcome/text of the subsequent
`reg export`. -/
structure RPDir where
  mtime : Int
  hasHiveFile : Bool
  loadOk : Bool
  vals : Option Vals
  exportOk : Bool
  exportText : Str
deriving DecidableEq

/-- Function `rp_is_before_cutoff` (lines 121-127):
`datetime.fromtimestamp(mtime, utc) < CUTOFF_DATETIME`, i.e.
`mtime < CUTOFF_EPOCH` on instants. -/
def rp_is_before_cutoff (rp : RPDir) : Bool := rp.mtime < CUTOFF_EPOCH

/-- Stable insertion (descending by `mtime`): an element is placed after
every already-present element whose key is ≥ its own, which is exactly
where Python's stable `sorted(..., reverse=True)` puts it. -/
def insertDesc (x : RPDir) : List RPDir → List RPDir
  | [] => [x]
  | y :: rest => if x.mtime ≤ y.mtime then y :: insertDesc x rest else x :: y :: rest

/-- Function `sort_rps_newest_first` (lines 129-130):
`sorted(rp_list, key=getmtime, reverse=True)`.  Python's `sorted` is a
stable sort, and a stable descending sort by a key is a unique function of
its input, here realised by stable insertion. -/
def sortDesc (l : List RPDir) : List RPDir :=
  l.foldl (fun acc x => insertDesc x acc) []

/-- The filter `[t for t in rps if rp_is_before_cutoff(t[0])]` of
`search_old_restore_points`. -/
def rps_filtered (rps : List RPDir) : List RPDir :=
  rps.filter rp_is_before_cutoff

/-- Composition `rps_sorted = sort_rps_newest_first(rps_filtered)`. -/
def rps_sorted (rps : List RPDir) : List RPDir :=
  sortDesc (rps_filtered rps)

/-- The `for rp_dir, snapshot_dir in rps_sorted` loop of
`search_old_restore_points` (lines 291-306): skip silently when no hive
file matches the SID; on `reg load` failure the bare `except` swallows the
error (after attempting `reg unload`); when the hive's old value is found
the export runs, the hive is unloaded and the search returns `True`. -/
def rpLoop (sim : Bool) : List RPDir → Bool × List Effect
  | [] => (false, [Effect.print Msg.noSuitableRP])
  | rp :: rest =>
    if !rp.hasHiveFile then rpLoop sim rest
    else if !rp.loadOk then
      let r := rpLoop sim rest
      (r.1, [Effect.regLoadCmd, Effect.regUnloadCmd] ++ r.2)
    else
      let m := modify_hive_value sim rp.vals
      if m.1 then
        let e := export_and_save sim rp.exportOk rp.exportText
        (true, [Effect.regLoadCmd] ++ m.2 ++ e.2 ++ [Effect.regUnloadCmd])
      else
        let r := rpLoop sim rest
        (r.1, [Effect.regLoadCmd] ++ m.2 ++ [Effect.regUnloadCmd] ++ r.2)

/-- Function `search_old_restore_points` (lines 284-306).  The cutoff filter prints
a skip message for each rejected directory (in input order); when nothing
survives the function reports and returns `False`, otherwise the loop over
the sorted survivors runs. -/
def search_old_restore_points (sim : Bool) (rps : List RPDir) : Bool × List Effect :=
  let es0 := (rps.filter (fun rp => CUTOFF_EPOCH ≤ rp.mtime)).map
      (fun rp => Effect.print (Msg.skippingRP rp.mtime))
  let sorted := rps_sorted rps
  if sorted.isEmpty then (false, es0 ++ [Effect.print Msg.noRPBeforeCutoff])
  else
    let r := rpLoop sim sorted
    (r.1, es0 ++ r.2)

/-- The `current` dict of `list_vss_snapshots_before_cutoff`: `idv` is the
`"id"` entry, `ctime` is `none` when the `"ctime"` key is absent,
`some none` when it was set to `None` after a parse failure, and
`some (some t)` when parsing (and UTC conversion) produced `t`. -/
structure VssCur where
  idv : Option Str
  ctime : Option (Option Int)
deriving DecidableEq

/-- The empty `current = {}` dict. -/
def vssInit : VssCur := ⟨none, none⟩

/-- Marker `"Shadow Copy ID:"`. -/
def SCID_MARK : Str := "Shadow Copy ID:".toList

/-- Marker `"at creation time:"`. -/
def ACT_MARK : Str := "at creation time:".toList

/-- Marker `"Shadow Copy Volume:"`. -/
def SCV_MARK : Str := "Shadow Copy Volume:".toList

/-- Python `line.split(":")[-1].strip()`. -/
def lastColonField (line : Str) : Str := pyStrip ((pySplit [':'] line).getLastD [])

/-- Python `line.split("at creation time:")[-1].strip()`. -/
def actField (line : Str) : Str := pyStrip ((pySplit ACT_MARK line).getLastD [])

/-- One iteration of the `for line in result.stdout.splitlines()` state
machine of `list_vss_snapshots_before_cutoff` (lines 172-195): returns the
new `current`, the paths appended to `shadows` and the prints performed. -/
def vssStep (parse : Str → Option Int) (cur : VssCur) (raw : Str) :
    VssCur × List Str × List Effect :=
  let line := pyStrip raw
  if SCID_MARK.isPrefixOf line then
    ({ cur with idv := some (lastColonField line) }, [], [])
  else if occursB ACT_MARK line then
    match parse (actField line) with
    | some t => ({ cur with ctime := some (some t) }, [], [])
    | none => ({ cur with ctime := some none }, [],
               [Effect.print (Msg.vssWarnParse (actField line))])
  else if SCV_MARK.isPrefixOf line then
    let path := lastColonField line
    match cur.ctime with
    | some (some t) =>
      (vssInit, if t < CUTOFF_EPOCH then [path] else [],
       [Effect.print (Msg.vssDebug path t)])
    | _ => (vssInit, [], [])
  else (cur, [], [])

/-- Folding `vssStep` over the remaining stdout lines. -/
def vssRun (parse : Str → Option Int) (cur : VssCur) :
    List Str → List Str × List Effect
  | [] => ([], [])
  | raw :: rest =>
    let s := vssStep parse cur raw
    let r := vssRun parse s.1 rest
    (s.2.1 ++ r.1, s.2.2 ++ r.2)

/-- Function `list_vss_snapshots_before_cutoff` (lines 166-199): runs
`vssadmin list shadows`, feeds its stdout lines through the state machine
and reports when no shadow survived. -/
def list_vss_snapshots_before_cutoff (parse : Str → Option Int) (stdout : Str) :
    List Str × List Effect :=
  let r := vssRun parse vssInit (splitlines stdout)
  (r.1,
   Effect.runVssAdmin :: r.2
   ++ (if r.1.isEmpty then [Effect.print Msg.noValidVss] else []))

/-- Ghost twin of `vssStep` that emits the appended path together with the
parsed UTC creation time it was accepted with. -/
def vssStepR (parse : Str → Option Int) (cur : VssCur) (raw : Str) :
    VssCur × List (Str × Int) :=
  let line := pyStrip raw
  if SCID_MARK.isPrefixOf line then
    ({ cur with idv := some (lastColonField line) }, [])
  else if occursB ACT_MARK line then
    match parse (actField line) with
    | some t => ({ cur with ctime := some (some t) }, [])
    | none => ({ cur with ctime := some none }, [])
  else if SCV_MARK.isPrefixOf line then
    let path := lastColonField line
    match cur.ctime with
    | some (some t) => (vssInit, if t < CUTOFF_EPOCH then [(path, t)] else [])
    | _ => (vssInit, [])
  else (cur, [])

/-- Folding the ghost step over the stdout lines. -/
def vssRunR (parse : Str → Option Int) (cur : VssCur) :
    List Str → List (Str × Int)
  | [] => []
  | raw :: rest =>
    let s := vssStepR parse cur raw
    s.2 ++ vssRunR parse s.1 rest

/-- World facts about one VSS shadow-copy path: whether
`<shadow>\Users\<user>\NTUSER.DAT` exists, whether `reg load` succeeds,
the mounted key contents and the export outcome/text. -/
structure ShadowW where
  ntuserExists : Bool
  loadOk : Bool
  vals : Option Vals
  exportOk : Bool
  exportText : Str

/-- The `for shadow in shadows` loop of `search_vss_snapshots`
(lines 317-334): on the first shadow whose mounted hive holds the old
value, the export runs, the hive is unloaded and the loop breaks with
`found = True`; load failures print an error and continue. -/
def vssLoop (sim : Bool) (info : Str → ShadowW) : List Str → Bool × List Effect
  | [] => (false, [])
  | shadow :: rest =>
    let sw := info shadow
    if !sw.ntuserExists then vssLoop sim info rest
    else if !sw.loadOk then
      let r := vssLoop sim info rest
      (r.1, [Effect.print (Msg.foundNtuser shadow), Effect.regLoadCmd,
             Effect.print (Msg.errorAccessSnapshot shadow), Effect.regUnloadCmd] ++ r.2)
    else
      let m := modify_hive_value sim sw.vals
      if m.1 then
        let e := export_and_save sim sw.exportOk sw.exportText
        (true, [Effect.print (Msg.foundNtuser shadow), Effect.regLoadCmd]
               ++ m.2 ++ e.2 ++ [Effect.regUnloadCmd])
      else
        let r := vssLoop sim info rest
        (r.1, [Effect.print (Msg.foundNtuser shadow), Effect.regLoadCmd]
              ++ m.2 ++ [Effect.regUnloadCmd] ++ r.2)

/-- Function `search_vss_snapshots` (lines 308-338): list the pre-cutoff shadows
(returning `False` straight away when there are none), loop over them, and
report when none yielded the key. -/
def search_vss_snapshots (sim : Bool) (parse : Str → Option Int) (stdout : Str)
    (info : Str → ShadowW) : Bool × List Effect :=
  let l := list_vss_snapshots_before_cutoff parse stdout
  if l.1.isEmpty then (false, l.2)
  else
    let r := vssLoop sim info l.1
    (r.1, l.2 ++ r.2 ++ (if r.1 then [] else [Effect.print Msg.noSuitableVss]))

/-- Values of the `--mode` argument. -/
inductive Mode where
  | simulation
  | live
deriving DecidableEq

/-- Global `SIMULATION_MODE` after argument parsing (`live` clears it). -/
def simOf : Mode → Bool
  | .simulation => true
  | .live => false

/-- The optional `--regfile` argument: `os.path.isfile` outcome and the
decoded text. -/
structure RegFileArg where
  isFile : Bool
  data : Str

/-- The world `main` runs against: platform, admin check outcome, leftover
files, parsed arguments, `whoami` SID lookup, live-backup outcome, the
restore-point candidates, the `vssadmin` stdout with the date oracle, and
the per-shadow facts. -/
structure World where
  osIsNt : Bool
  adminCallOk : Bool
  adminRet : Int
  snapshotExportLeft : Bool
  outputLeft : Bool
  mode : Mode
  regfileArg : Option RegFileArg
  sid : Option Str
  liveBackupOk : Bool
  rps : List RPDir
  vssStdout : Str
  parseDate : Str → Option Int
  shadowInfo : Str → ShadowW

/-- The leftover-file cleanup loop of `main` (lines 353-355). -/
def cleanupEffects (w : World) : List Effect :=
  (if w.snapshotExportLeft then [Effect.removeFile SNAPSHOT_EXPORT_FILE] else [])
  ++ (if w.outputLeft then [Effect.removeFile OUTPUT_REG_FILE] else [])

/-- The backup-then-search tail of `main` (lines 379-385): backup the live
key, try the restore points, only on failure try the VSS shadows, and
report when both fail. -/
def mainSearchPart (w : World) : List Effect :=
  backup_live_hkcu_key w.liveBackupOk
  ++ (let s1 := search_old_restore_points (simOf w.mode) w.rps
      if s1.1 then s1.2
      else
        s1.2 ++ (let s2 := search_vss_snapshots (simOf w.mode) w.parseDate w.vssStdout w.shadowInfo
                 s2.2 ++ (if s2.1 then [] else [Effect.print Msg.keyNotFoundAnywhere])))

/-- The `--regfile` branch of `main` (lines 373-376): a used reg file ends
the run, otherwise the search tail follows. -/
def mainWithSid (w : World) : List Effect :=
  match w.regfileArg with
  | none => mainSearchPart w
  | some rf =>
    let pr := process_regfile (simOf w.mode) rf.isFile rf.data w.liveBackupOk
    if pr.1 then pr.2 else pr.2 ++ mainSearchPart w

/-- Function `main` (lines 342-385) as its effect trace. -/
def mainModel (w : World) : List Effect :=
  if !w.osIsNt then [Effect.print Msg.notWindows]
  else if !is_admin w.adminCallOk w.adminRet then [Effect.print Msg.runAsAdmin]
  else
    cleanupEffects w
    ++ [Effect.print (Msg.runningMode (!simOf w.mode))]
    ++ [Effect.runWhoami]
    ++ match w.sid with
       | none => [Effect.print Msg.sidError]
       | some _ => mainWithSid w

/-- Claim C10: `modify_hive_value` returns `False` with no effects (no
raise, no write) whenever the mounted hive lacks the target key (the
`OpenKey` `FileNotFoundError`) or the old value (the `QueryValueEx`
`FileNotFoundError`); and it returns `True` exactly when the old value was
read successfully. -/
theorem C10_modify_hive_value (sim : Bool) (hive : Option Vals) :
    ((hive = none ∨ ∃ vals, hive = some vals ∧ lookupVal vals OLD_VALUE_NAME = none) →
      modify_hive_value sim hive = (false, []))
    ∧ ((modify_hive_value sim hive).1 = true ↔
        ∃ vals vt v, hive = some vals ∧ lookupVal vals OLD_VALUE_NAME = some (vt, v)) := by
  constructor
  · rintro (rfl | ⟨vals, rfl, hl⟩)
    · rfl
    · simp [modify_hive_value, hl]
  · cases hive with
    | none => simp [modify_hive_value]
    | some vals =>
      cases hl : lookupVal vals OLD_VALUE_NAME with
      | none => simp [modify_hive_value, hl]
      | some p =>
        cases p with
        | mk vt v => simp [modify_hive_value, hl]

/-- Witness for C10 at concrete hives: a missing key yields `(false, [])`,
and a hive holding the old value yields `True`. -/
theorem C10_modify_hive_value_witness :
    modify_hive_value true none = (false, [])
    ∧ (modify_hive_value true (some [(OLD_VALUE_NAME, 3, "aa".toList)])).1 = true := by
  refine ⟨(C10_modify_hive_value true none).1 (Or.inl rfl), ?_⟩
  exact (C10_modify_hive_value true (some [(OLD_VALUE_NAME, 3, "aa".toList)])).2.mpr
    ⟨[(OLD_VALUE_NAME, 3, "aa".toList)], 3, "aa".toList, rfl, by decide⟩

/-- Effects a simulation run is allowed to have according to claim C2:
prints, the two `reg export` backups, and the two generated fix files. -/
def allowedSimEffect : Effect → Bool
  | .print _ => true
  | .regExportCmd f => f == LIVE_BACKUP_FILE || f == SNAPSHOT_EXPORT_FILE
  | .writeFile p _ => p == REGFILE_FIX_OUTPUT || p == OUTPUT_REG_FILE
  | _ => false

/-- Claim C2: in simulation mode the live registry is untouched —
`modify_hive_value` performs no effect at all (it reads but never calls
`SetValueEx`), and `process_regfile` and `export_and_save` never run
`reg import`; their effects are only prints, the backup exports and the
generated `.reg` files. -/
theorem C2_simulation_frame (hive : Option Vals) (isFile liveBackupOk exportOk : Bool)
    (data exportText : Str) :
    (modify_hive_value true hive).2 = []
    ∧ ((process_regfile true isFile data liveBackupOk).2).all allowedSimEffect = true
    ∧ ((export_and_save true exportOk exportText).2).all allowedSimEffect = true := by
  refine ⟨?_, ?_, ?_⟩
  · cases hive with
    | none => rfl
    | some vals =>
      cases hl : lookupVal vals OLD_VALUE_NAME with
      | none => simp [modify_hive_value, hl]
      | some p =>
        cases p with
        | mk vt v => simp [modify_hive_value, hl]
  · by_cases hf : isFile <;> by_cases ho : occursB HKCU_KEY_LINE data <;>
      simp [process_regfile, backup_live_hkcu_key, hf, ho, allowedSimEffect]
  · by_cases he : exportOk <;> simp [export_and_save, he, allowedSimEffect]

/-- Claim C8: on a non-Windows platform `main` prints the notice and does
nothing else — no file removal, no snapshot search, no registry access. -/
theorem C8_non_windows (w : World) (h : w.osIsNt = false) :
    mainModel w = [Effect.print Msg.notWindows] := by
  simp [mainModel, h]

/-- Witness for C8 at a concrete world. -/
def sampleWorld : World where
  osIsNt := true
  adminCallOk := true
  adminRet := 1
  snapshotExportLeft := false
  outputLeft := false
  mode := Mode.simulation
  regfileArg := none
  sid := some "S-1-5-21-1".toList
  liveBackupOk := true
  rps := []
  vssStdout := []
  parseDate := fun _ => none
  shadowInfo := fun _ => ⟨false, false, none, false, []⟩

/-- Witness for C8: the non-Windows world's whole trace is the single
notice. -/
theorem C8_non_windows_witness :
    mainModel { sampleWorld with osIsNt := false } = [Effect.print Msg.notWindows] :=
  C8_non_windows { sampleWorld with osIsNt := false } rfl

/-- Claim C9: a failing `IsUserAnAdmin` call (including the exception
branch of `is_admin`, which returns `False`) makes `main` stop right after
the print: no cleanup removal, no backup, no search, no registry
operation. -/
theorem C9_admin_gate (w : World) :
    (w.adminCallOk = false → is_admin w.adminCallOk w.adminRet = false)
    ∧ (w.osIsNt = true → is_admin w.adminCallOk w.adminRet = false →
        mainModel w = [Effect.print Msg.runAsAdmin]) := by
  constructor
  · intro h; simp [is_admin, h]
  · intro hos hadm; simp [mainModel, hos, hadm]

/-- Witness for C9: with the admin check raising, the whole trace is the
single admin notice. -/
theorem C9_admin_gate_witness :
    is_admin false (1 : Int) = false
    ∧ mainModel { sampleWorld with adminCallOk := false } = [Effect.print Msg.runAsAdmin] :=
  ⟨(C9_admin_gate { sampleWorld with adminCallOk := false }).1 rfl,
   (C9_admin_gate { sampleWorld with adminCallOk := false }).2 rfl
     ((C9_admin_gate { sampleWorld with adminCallOk := false }).1 rfl)⟩

/-- A list is a `isPrefixOf`-prefix of itself followed by anything. -/
theorem isPrefixOf_append_self : ∀ (l t : Str), l.isPrefixOf (l ++ t) = true := by
  intro l t
  induction l with
  | nil => simp [List.isPrefixOf]
  | cons c cs ih => simp [List.isPrefixOf, ih]

/-- A needle starting with `hch` is no prefix of a list starting with a
different character. -/
theorem isPrefixOf_cons_ne (hch c : Char) (ntl xs : Str) (h : hch ≠ c) :
    (hch :: ntl).isPrefixOf (c :: xs) = false := by
  simp [List.isPrefixOf, h]

/-- Python `str.replace` is the identity on strings without an occurrence of the
needle (for any fuel: every step is then the copying branch). -/
theorem pyReplaceAux_not_occurs (needle repl : Str) :
    ∀ (fuel : Nat) (s : Str), occursB needle s = false →
      pyReplaceAux needle repl fuel s = s := by
  intro fuel
  induction fuel with
  | zero => intro s h; cases s <;> rfl
  | succ f ih =>
    intro s h
    cases s with
    | nil => rfl
    | cons c rest =>
      have h2 : needle.isPrefixOf (c :: rest) = false ∧ occursB needle rest = false := by
        simpa [occursB] using h
      simp [pyReplaceAux, h2.1, ih rest h2.2]

/-- One copying step of `pyReplaceAux` when the needle does not match
here. -/
theorem pyReplaceAux_cons_no_match (needle repl : Str) (f : Nat) (c : Char) (rest : Str)
    (h : needle.isPrefixOf (c :: rest) = false) :
    pyReplaceAux needle repl (f + 1) (c :: rest) = c :: pyReplaceAux needle repl f rest := by
  simp [pyReplaceAux, h]

/-- One replacing step of `pyReplaceAux` at an occurrence of the
needle. -/
theorem pyReplaceAux_cons_match (hch : Char) (ntl repl : Str) (f : Nat) (post : Str) :
    pyReplaceAux (hch :: ntl) repl (f + 1) ((hch :: ntl) ++ post)
      = repl ++ pyReplaceAux (hch :: ntl) repl f post := by
  have hpf : (hch :: ntl).isPrefixOf ((hch :: ntl) ++ post) = true :=
    isPrefixOf_append_self _ _
  rw [show ((hch :: ntl) ++ post) = hch :: (ntl ++ post) from rfl]
  rw [show ((hch :: ntl) ++ post) = hch :: (ntl ++ post) from rfl] at hpf
  simp only [pyReplaceAux, List.isEmpty_cons, Bool.not_false, hpf, Bool.and_self, if_true]
  congr 1
  rw [show (hch :: ntl).length = ntl.length + 1 from rfl]
  rw [List.drop_succ_cons]
  rw [show ntl.length = ntl.length from rfl]
  exact congrArg _ (List.drop_left ntl post)

/-- Scanning past an occurrence: if the needle's first character does not
appear in `pre`, `str.replace` copies `pre`, replaces the occurrence and
continues on `post`. -/
theorem pyReplaceAux_hit (hch : Char) (ntl repl : Str) :
    ∀ (pre : Str) (fuel : Nat) (post : Str), hch ∉ pre → pre.length + 1 ≤ fuel →
      pyReplaceAux (hch :: ntl) repl fuel (pre ++ (hch :: ntl) ++ post)
        = pre ++ repl ++ pyReplaceAux (hch :: ntl) repl (fuel - (pre.length + 1)) post := by
  intro pre
  induction pre with
  | nil =>
    intro fuel post _ hf
    obtain ⟨f, rfl⟩ : ∃ f, fuel = f + 1 := ⟨fuel - 1, by omega⟩
    simp only [List.nil_append]
    rw [pyReplaceAux_cons_match]
    simp
  | cons c pre' ih =>
    intro fuel post hni hf
    obtain ⟨f, rfl⟩ : ∃ f, fuel = f + 1 := ⟨fuel - 1, by omega⟩
    have hc : hch ≠ c := fun h => hni (h ▸ List.mem_cons_self c pre')
    have hni' : hch ∉ pre' := fun h => hni (List.mem_cons_of_mem _ h)
    have hnp : (hch :: ntl).isPrefixOf (c :: (pre' ++ (hch :: ntl) ++ post)) = false :=
      isPrefixOf_cons_ne _ _ _ _ hc
    have hlen : pre'.length + 1 ≤ f := by simp at hf; omega
    rw [show ((c :: pre') ++ (hch :: ntl) ++ post) = c :: (pre' ++ (hch :: ntl) ++ post)
        from rfl]
    rw [pyReplaceAux_cons_no_match _ _ f c _ hnp]
    rw [ih f post hni' hlen]
    have harith : f + 1 - ((c :: pre').length + 1) = f - (pre'.length + 1) := by
      simp only [List.length_cons]; omega
    rw [harith]
    simp

/-- Python `s.replace(needle, repl)` on a string with exactly one (isolated)
occurrence of the needle. -/
theorem pyReplace_single (hch : Char) (ntl repl pre post : Str)
    (h1 : hch ∉ pre) (h2 : occursB (hch :: ntl) post = false) :
    pyReplace (hch :: ntl) repl (pre ++ (hch :: ntl) ++ post) = pre ++ repl ++ post := by
  unfold pyReplace
  rw [pyReplaceAux_hit hch ntl repl pre _ post h1
    (by simp only [List.length_append, List.length_cons]; omega)]
  rw [pyReplaceAux_not_occurs _ _ _ _ h2]

/-- Selector for file-writing effects. -/
def isWriteFileB : Effect → Bool
  | .writeFile _ _ => true
  | _ => false

/-- Claim C5: on a successful export whose text is the header
`[HKEY_USERS\TempHive\...]` between a header-free preamble and a tail, the
file `export_and_save` writes is the duplication pass applied to the text
with that header line replaced by `[HKEY_CURRENT_USER\...]`. -/
theorem C5_header_rewrite (sim : Bool) (pre post : Str)
    (h1 : '[' ∉ pre) (h2 : occursB HKU_HEADER post = false) :
    ((export_and_save sim true (pre ++ HKU_HEADER ++ post)).2).filter isWriteFileB
      = [Effect.writeFile OUTPUT_REG_FILE
          (joinLines (dupBlocks (splitlines (pre ++ HKCU_KEY_LINE ++ post))))] := by
  have hh : HKU_HEADER = '[' :: HKU_HEADER.tail := by decide
  have h2' : occursB ('[' :: HKU_HEADER.tail) post = false := by rw [← hh]; exact h2
  have hrep : pyReplace HKU_HEADER HKCU_KEY_LINE (pre ++ HKU_HEADER ++ post)
      = pre ++ HKCU_KEY_LINE ++ post := by
    rw [hh]
    exact pyReplace_single '[' HKU_HEADER.tail HKCU_KEY_LINE pre post h1 h2'
  have hrep' : pyReplace HKU_HEADER HKCU_KEY_LINE (pre ++ (HKU_HEADER ++ post))
      = pre ++ (HKCU_KEY_LINE ++ post) := by
    rw [← List.append_assoc, hrep, List.append_assoc]
  cases sim <;>
    simp [export_and_save, exportFixText, hrep', isWriteFileB, List.filter]

/-- Preamble for the C5 witness. -/
def w5pre : Str := "Windows Registry Editor Version 5.00\n\n".toList

/-- Tail for the C5 witness. -/
def w5post : Str := "\n\"a\"=\"b\"".toList

/-- Witness for C5: a concrete export text whose written output carries the
rewritten header. -/
theorem C5_header_rewrite_witness :
    '[' ∉ w5pre ∧ occursB HKU_HEADER w5post = false ∧
    ((export_and_save true true (w5pre ++ HKU_HEADER ++ w5post)).2).filter isWriteFileB
      = [Effect.writeFile OUTPUT_REG_FILE
          (joinLines (dupBlocks (splitlines (w5pre ++ HKCU_KEY_LINE ++ w5post))))] :=
  ⟨by decide, by decide, C5_header_rewrite true w5pre w5post (by decide) (by decide)⟩

/-- Claim C7: `process_regfile` returns `False` and writes no file when the
path is not a file or the HKCU key line does not occur in the text (so the
caller falls through to the snapshot search); and when it returns `True`
the single file it wrote is the input text with every occurrence of the
old value name replaced by the new one. -/
theorem C7_process_regfile (sim isFile liveBackupOk : Bool) (data : Str) :
    ((isFile = false ∨ occursB HKCU_KEY_LINE data = false) →
      (process_regfile sim isFile data liveBackupOk).1 = false
      ∧ ((process_regfile sim isFile data liveBackupOk).2).filter isWriteFileB = [])
    ∧ ((process_regfile sim isFile data liveBackupOk).1 = true →
      ((process_regfile sim isFile data liveBackupOk).2).filter isWriteFileB
        = [Effect.writeFile REGFILE_FIX_OUTPUT
            (pyReplace OLD_VALUE_NAME NEW_VALUE_NAME data)]) := by
  constructor
  · rintro (h | h)
    · simp [process_regfile, h, isWriteFileB]
    · by_cases hf : isFile
      · simp [process_regfile, hf, h, isWriteFileB]
      · simp [process_regfile, hf, isWriteFileB]
  · intro h
    by_cases hf : isFile
    · by_cases ho : occursB HKCU_KEY_LINE data
      · cases sim <;>
          simp [process_regfile, hf, ho, backup_live_hkcu_key, isWriteFileB, List.filter]
      · simp [process_regfile, hf, ho] at h
    · simp [process_regfile, hf] at h

/-- Witness for C7: a missing file returns `False` with no write; a text
containing the key line is rewritten with the value name replaced. -/
theorem C7_process_regfile_witness :
    ((process_regfile true false [] true).1 = false
      ∧ ((process_regfile true false [] true).2).filter isWriteFileB = [])
    ∧ ((process_regfile true true HKCU_KEY_LINE true).2).filter isWriteFileB
        = [Effect.writeFile REGFILE_FIX_OUTPUT
            (pyReplace OLD_VALUE_NAME NEW_VALUE_NAME HKCU_KEY_LINE)] :=
  ⟨(C7_process_regfile true false true []).1 (Or.inl rfl),
   (C7_process_regfile true true true HKCU_KEY_LINE).2 (by decide)⟩

/-- The ghost step agrees with the real step: same next state, and the
emitted paths are the first components of the emitted records. -/
theorem vssStep_paths (parse : Str → Option Int) (cur : VssCur) (raw : Str) :
    (vssStep parse cur raw).1 = (vssStepR parse cur raw).1
    ∧ (vssStep parse cur raw).2.1 = ((vssStepR parse cur raw).2).map Prod.fst := by
  unfold vssStep vssStepR
  by_cases h1 : SCID_MARK.isPrefixOf (pyStrip raw) = true
  · simp [h1]
  · simp only [h1, Bool.false_eq_true, if_false]
    by_cases h2 : occursB ACT_MARK (pyStrip raw) = true
    · simp only [h2, if_true]
      cases hp : parse (actField (pyStrip raw)) <;> simp [hp]
    · simp only [h2, Bool.false_eq_true, if_false]
      by_cases h3 : SCV_MARK.isPrefixOf (pyStrip raw) = true
      · simp only [h3, if_true]
        rcases hct : cur.ctime with _ | ct
        · simp [hct]
        · cases ct with
          | none => simp [hct]
          | some t =>
            by_cases hlt : t < CUTOFF_EPOCH <;> simp [hct, hlt]
      · simp [h3]

/-- The paths returned by the state machine are the first components of
the ghost records. -/
theorem vssRun_paths (parse : Str → Option Int) :
    ∀ (lines : List Str) (cur : VssCur),
      (vssRun parse cur lines).1 = (vssRunR parse cur lines).map Prod.fst := by
  intro lines
  induction lines with
  | nil => intro cur; rfl
  | cons raw rest ih =>
    intro cur
    have h := vssStep_paths parse cur raw
    simp [vssRun, vssRunR, h.1, h.2, ih]

/-- A record emitted by one ghost step was accepted with the parsed
creation time the `current` dict held, and that time is before the
cutoff. -/
theorem vssStepR_emit (parse : Str → Option Int) (cur : VssCur) (raw : Str)
    (pr : Str × Int) (h : pr ∈ (vssStepR parse cur raw).2) :
    pr.2 < CUTOFF_EPOCH ∧ cur.ctime = some (some pr.2) := by
  unfold vssStepR at h
  by_cases h1 : SCID_MARK.isPrefixOf (pyStrip raw) = true
  · simp [h1] at h
  · simp only [h1, Bool.false_eq_true, if_false] at h
    by_cases h2 : occursB ACT_MARK (pyStrip raw) = true
    · simp only [h2, if_true] at h
      cases hp : parse (actField (pyStrip raw)) <;>
        simp [hp] at h
    · simp only [h2, Bool.false_eq_true, if_false] at h
      by_cases h3 : SCV_MARK.isPrefixOf (pyStrip raw) = true
      · simp only [h3, if_true] at h
        rcases hct : cur.ctime with _ | ct
        · simp [hct] at h
        · cases ct with
          | none => simp [hct] at h
          | some t =>
            by_cases hlt : t < CUTOFF_EPOCH
            · simp [hct, hlt] at h
              subst h
              exact ⟨hlt, rfl⟩
            · simp [hct, hlt] at h
      · simp [h3] at h

/-- The ghost step preserves the invariant that any parsed creation time
held by `current` came from a successful `parse`. -/
theorem vssStepR_inv (parse : Str → Option Int) (cur : VssCur) (raw : Str)
    (hinv : ∀ t : Int, cur.ctime = some (some t) → ∃ ds, parse ds = some t) :
    ∀ t : Int, (vssStepR parse cur raw).1.ctime = some (some t) →
      ∃ ds, parse ds = some t := by
  intro t ht
  unfold vssStepR at ht
  by_cases h1 : SCID_MARK.isPrefixOf (pyStrip raw) = true
  · simp [h1] at ht
    exact hinv t ht
  · simp only [h1, Bool.false_eq_true, if_false] at ht
    by_cases h2 : occursB ACT_MARK (pyStrip raw) = true
    · simp only [h2, if_true] at ht
      cases hp : parse (actField (pyStrip raw)) with
      | none => simp [hp] at ht
      | some t0 =>
        simp [hp] at ht
        exact ⟨_, ht ▸ hp⟩
    · simp only [h2, Bool.false_eq_true, if_false] at ht
      by_cases h3 : SCV_MARK.isPrefixOf (pyStrip raw) = true
      · simp only [h3, if_true] at ht
        rcases hct : cur.ctime with _ | ct
        · simp [hct, vssInit] at ht
        · cases ct with
          | none => simp [hct, vssInit] at ht
          | some t1 => simp [hct, vssInit] at ht
      · simp [h3] at ht
        exact hinv t ht

/-- Every ghost record's time is strictly before the cutoff. -/
theorem vssRunR_lt_cutoff (parse : Str → Option Int) :
    ∀ (lines : List Str) (cur : VssCur) (pr : Str × Int),
      pr ∈ vssRunR parse cur lines → pr.2 < CUTOFF_EPOCH := by
  intro lines
  induction lines with
  | nil => intro cur pr h; simp [vssRunR] at h
  | cons raw rest ih =>
    intro cur pr h
    simp only [vssRunR, List.mem_append] at h
    rcases h with h | h
    · exact (vssStepR_emit parse cur raw pr h).1
    · exact ih _ _ h

/-- Every ghost record's time came from a successful parse. -/
theorem vssRunR_parsed (parse : Str → Option Int) :
    ∀ (lines : List Str) (cur : VssCur),
      (∀ t : Int, cur.ctime = some (some t) → ∃ ds, parse ds = some t) →
      ∀ pr ∈ vssRunR parse cur lines, ∃ ds, parse ds = some pr.2 := by
  intro lines
  induction lines with
  | nil => intro cur _ pr h; simp [vssRunR] at h
  | cons raw rest ih =>
    intro cur hinv pr h
    simp only [vssRunR, List.mem_append] at h
    rcases h with h | h
    · have := (vssStepR_emit parse cur raw pr h).2
      exact hinv pr.2 this
    · exact ih _ (vssStepR_inv parse cur raw hinv) pr h

/-- Claim C3: every shadow-copy path returned by
`list_vss_snapshots_before_cutoff` was accepted together with a creation
time that was successfully parsed (and UTC-converted) from the `vssadmin`
output and is strictly before the cutoff 2025-10-04 09:10:16 UTC; a
shadow whose `current` dict lacks a parsed time is never emitted. -/
theorem C3_vss_cutoff (parse : Str → Option Int) (stdout : Str) (p : Str)
    (hp : p ∈ (list_vss_snapshots_before_cutoff parse stdout).1) :
    ∃ t : Int, (p, t) ∈ vssRunR parse vssInit (splitlines stdout)
      ∧ t < CUTOFF_EPOCH ∧ ∃ ds, parse ds = some t := by
  have hpaths := vssRun_paths parse (splitlines stdout) vssInit
  simp only [list_vss_snapshots_before_cutoff] at hp
  rw [hpaths] at hp
  obtain ⟨pr, hpr, hfst⟩ := List.mem_map.mp hp
  refine ⟨pr.2, ?_, vssRunR_lt_cutoff parse _ _ _ hpr,
    vssRunR_parsed parse _ _ (by intro t h; simp [vssInit] at h) pr hpr⟩
  cases pr with
  | mk a b =>
    simp at hfst
    subst hfst
    exact hpr

/-- Sample `vssadmin list shadows` stdout for the C3 witness. -/
def w3stdout : Str :=
  ("Shadow Copy ID: 12345\n"
   ++ "   Contained 1 shadow copies at creation time: 10/1/2025 12:11:45 PM\n"
   ++ "      Shadow Copy Volume: \\\\?\\GLOBALROOT\\Device\\HarddiskVolumeShadowCopy1\n").toList

/-- Sample date oracle for the C3 witness. -/
def w3parse : Str → Option Int := fun ds =>
  if ds = "10/1/2025 12:11:45 PM".toList then some 1759300000 else none

/-- The shadow path of the C3 witness. -/
def w3path : Str := "\\\\?\\GLOBALROOT\\Device\\HarddiskVolumeShadowCopy1".toList

/-- Witness for C3 at the sample stdout. -/
theorem C3_vss_cutoff_witness :
    w3path ∈ (list_vss_snapshots_before_cutoff w3parse w3stdout).1
    ∧ ∃ t : Int, (w3path, t) ∈ vssRunR w3parse vssInit (splitlines w3stdout)
      ∧ t < CUTOFF_EPOCH ∧ ∃ ds, w3parse ds = some t :=
  ⟨by decide, C3_vss_cutoff w3parse w3stdout w3path (by decide)⟩

/-- Descending order on restore points by raw modification time. -/
def rpGE (a b : RPDir) : Prop := b.mtime ≤ a.mtime

/-- Membership in a stable descending insertion. -/
theorem mem_insertDesc (x : RPDir) : ∀ (l : List RPDir) (a : RPDir),
    a ∈ insertDesc x l ↔ a = x ∨ a ∈ l := by
  intro l
  induction l with
  | nil => intro a; simp [insertDesc]
  | cons y rest ih =>
    intro a
    by_cases h : x.mtime ≤ y.mtime
    · simp only [insertDesc, if_pos h, List.mem_cons, ih]
      tauto
    · simp only [insertDesc, if_neg h, List.mem_cons]

/-- Inserting into a descending list keeps it descending. -/
theorem pairwise_insertDesc (x : RPDir) : ∀ (l : List RPDir),
    l.Pairwise rpGE → (insertDesc x l).Pairwise rpGE := by
  intro l
  induction l with
  | nil => intro _; simp [insertDesc, rpGE]
  | cons y rest ih =>
    intro h
    rcases List.pairwise_cons.mp h with ⟨hy, hrest⟩
    by_cases hx : x.mtime ≤ y.mtime
    · rw [insertDesc, if_pos hx]
      refine List.pairwise_cons.mpr ⟨?_, ih hrest⟩
      intro b hb
      rcases (mem_insertDesc x rest b).mp hb with rfl | hb'
      · exact hx
      · exact hy b hb'
    · have hyx : y.mtime ≤ x.mtime := le_of_lt (lt_of_not_le hx)
      rw [insertDesc, if_neg hx]
      refine List.pairwise_cons.mpr ⟨?_, h⟩
      intro b hb
      rcases List.mem_cons.mp hb with rfl | hb'
      · exact hyx
      · exact le_trans (hy b hb') hyx

/-- The insertion-sort fold keeps the accumulator descending. -/
theorem pairwise_sortDesc_go : ∀ (l acc : List RPDir), acc.Pairwise rpGE →
    (List.foldl (fun acc x => insertDesc x acc) acc l).Pairwise rpGE := by
  intro l
  induction l with
  | nil => intro acc h; simpa using h
  | cons x rest ih =>
    intro acc h
    simpa [List.foldl_cons] using ih _ (pairwise_insertDesc x acc h)

/-- Sorting via `sort_rps_newest_first` yields a list descending by `mtime`. -/
theorem pairwise_sortDesc (l : List RPDir) : (sortDesc l).Pairwise rpGE :=
  pairwise_sortDesc_go l [] List.Pairwise.nil

/-- Membership through the insertion-sort fold. -/
theorem mem_sortDesc_go : ∀ (l acc : List RPDir) (a : RPDir),
    a ∈ List.foldl (fun acc x => insertDesc x acc) acc l ↔ a ∈ acc ∨ a ∈ l := by
  intro l
  induction l with
  | nil => intro acc a; simp
  | cons x rest ih =>
    intro acc a
    simp only [List.foldl_cons, ih, mem_insertDesc, List.mem_cons]
    tauto

/-- Sorting preserves membership. -/
theorem mem_sortDesc (l : List RPDir) (a : RPDir) : a ∈ sortDesc l ↔ a ∈ l := by
  unfold sortDesc
  rw [mem_sortDesc_go]
  simp

/-- Every restore point the loop considers is strictly before the
cutoff. -/
theorem rps_sorted_before_cutoff (rps : List RPDir) :
    (rps_sorted rps).all rp_is_before_cutoff = true := by
  rw [List.all_eq_true]
  intro r hr
  exact List.of_mem_filter ((mem_sortDesc _ r).mp hr)

/-- The mounted hive holds the old value. -/
def hiveHasOld : Option Vals → Bool
  | none => false
  | some vals => (lookupVal vals OLD_VALUE_NAME).isSome

/-- A restore point the loop skips: no hive file for the SID, an
unloadable hive, or a hive without the old value. -/
def rpFails (rp : RPDir) : Bool :=
  !rp.hasHiveFile || !rp.loadOk || !hiveHasOld rp.vals

/-- A restore point at which the loop stops: hive file present, loadable,
old value found. -/
def rpSucceeds (rp : RPDir) : Bool :=
  rp.hasHiveFile && rp.loadOk && hiveHasOld rp.vals

/-- Effects of a skipped restore point. -/
def rpFailEffects (rp : RPDir) : List Effect :=
  if rp.hasHiveFile then [Effect.regLoadCmd, Effect.regUnloadCmd] else []

/-- Reading via `modify_hive_value` succeeds exactly when the mounted hive holds the
old value (independently of the mode). -/
theorem modify_fst (sim : Bool) (hive : Option Vals) :
    (modify_hive_value sim hive).1 = hiveHasOld hive := by
  cases hive with
  | none => rfl
  | some vals =>
    cases h : lookupVal vals OLD_VALUE_NAME with
    | none => simp [modify_hive_value, hiveHasOld, h]
    | some p =>
      cases p with
      | mk vt v => simp [modify_hive_value, hiveHasOld, h]

/-- A failed `modify_hive_value` performs no effect. -/
theorem modify_snd_empty (sim : Bool) (hive : Option Vals)
    (h : hiveHasOld hive = false) : (modify_hive_value sim hive).2 = [] := by
  cases hive with
  | none => rfl
  | some vals =>
    cases hl : lookupVal vals OLD_VALUE_NAME with
    | none => simp [modify_hive_value, hl]
    | some p => simp [hiveHasOld, hl] at h

/-- The loop over a failing head: result of the tail, with the head's
effects prepended. -/
theorem rpLoop_cons_fail (sim : Bool) (rp : RPDir) (rest : List RPDir)
    (h : rpFails rp = true) :
    rpLoop sim (rp :: rest)
      = ((rpLoop sim rest).1, rpFailEffects rp ++ (rpLoop sim rest).2) := by
  cases hhf : rp.hasHiveFile with
  | false => simp [rpLoop, hhf, rpFailEffects]
  | true =>
    cases hlo : rp.loadOk with
    | false => simp [rpLoop, hhf, hlo, rpFailEffects]
    | true =>
      have h3 : hiveHasOld rp.vals = false := by
        simpa [rpFails, hhf, hlo] using h
      have hm := modify_fst sim rp.vals
      rw [h3] at hm
      simp [rpLoop, hhf, hlo, hm, modify_snd_empty sim rp.vals h3, rpFailEffects]

/-- The loop stops with `True` at a succeeding head, never looking at the
tail. -/
theorem rpLoop_cons_succ (sim : Bool) (rp : RPDir) (rest : List RPDir)
    (h : rpSucceeds rp = true) :
    rpLoop sim (rp :: rest)
      = (true, [Effect.regLoadCmd] ++ (modify_hive_value sim rp.vals).2
               ++ (export_and_save sim rp.exportOk rp.exportText).2
               ++ [Effect.regUnloadCmd]) := by
  have h' : rp.hasHiveFile = true ∧ rp.loadOk = true ∧ hiveHasOld rp.vals = true := by
    simpa [rpSucceeds, Bool.and_eq_true, and_assoc] using h
  have hm := modify_fst sim rp.vals
  rw [h'.2.2] at hm
  simp [rpLoop, h'.1, h'.2.1, hm]

/-- The loop over an all-failing prefix: result of the remainder with the
prefix's effects in front. -/
theorem rpLoop_append_fail (sim : Bool) :
    ∀ (pre l : List RPDir), pre.all rpFails = true →
      rpLoop sim (pre ++ l)
        = ((rpLoop sim l).1, (pre.map rpFailEffects).flatten ++ (rpLoop sim l).2) := by
  intro pre
  induction pre with
  | nil => intro l _; simp
  | cons rp pre' ih =>
    intro l h
    rw [List.all_cons, Bool.and_eq_true] at h
    rw [List.cons_append, rpLoop_cons_fail sim rp _ ?tailfail, ih l h.2]
    case tailfail =>
      have : (pre' ++ l).all rpFails = true ∨ True := Or.inr trivial
      exact h.1
    simp

/-- Claim C4: `search_old_restore_points` considers only directories whose
modification instant is strictly before the cutoff, tries them newest
first (descending `mtime`, `rpGE`-pairwise), and returns `True` at the
first one whose mounted hive contains the old value — the loop's outcome
does not depend on the later (older) entries at all. -/
theorem C4_restore_point_search (sim : Bool) (rps pre post : List RPDir) (rp : RPDir)
    (hdec : rps_sorted rps = pre ++ rp :: post)
    (hpre : pre.all rpFails = true)
    (hrp : rpSucceeds rp = true) :
    (search_old_restore_points sim rps).1 = true
    ∧ rpLoop sim (pre ++ rp :: post) = rpLoop sim (pre ++ [rp])
    ∧ (rps_sorted rps).all rp_is_before_cutoff = true
    ∧ (rps_sorted rps).Pairwise rpGE := by
  have hsucc := rpLoop_cons_succ sim rp post hrp
  have hsucc1 := rpLoop_cons_succ sim rp ([] : List RPDir) hrp
  have hl := rpLoop_append_fail sim pre (rp :: post) hpre
  have hl1 := rpLoop_append_fail sim pre [rp] hpre
  refine ⟨?_, ?_, rps_sorted_before_cutoff rps, pairwise_sortDesc _⟩
  · have hne : (rps_sorted rps).isEmpty = false := by
      rw [hdec]; cases pre <;> rfl
    simp only [search_old_restore_points, hne, Bool.false_eq_true, if_false]
    rw [hdec, hl, hsucc]
  · rw [hl, hl1, hsucc, hsucc1]

/-- The succeeding restore point of the C4 witness (older). -/
def w4rpOld : RPDir :=
  { mtime := 50, hasHiveFile := true, loadOk := true,
    vals := some [(OLD_VALUE_NAME, 3, "aa".toList)], exportOk := true, exportText := [] }

/-- The skipped restore point of the C4 witness (newer, no hive file). -/
def w4rpSkip : RPDir :=
  { mtime := 100, hasHiveFile := false, loadOk := true,
    vals := none, exportOk := true, exportText := [] }

/-- Witness for C4: on two concrete restore points, the search succeeds at
the first (newest) hive that holds the old value. -/
theorem C4_restore_point_search_witness :
    (search_old_restore_points true [w4rpOld, w4rpSkip]).1 = true
    ∧ rpLoop true ([w4rpSkip] ++ w4rpOld :: []) = rpLoop true ([w4rpSkip] ++ [w4rpOld])
    ∧ (rps_sorted [w4rpOld, w4rpSkip]).all rp_is_before_cutoff = true
    ∧ (rps_sorted [w4rpOld, w4rpSkip]).Pairwise rpGE :=
  C4_restore_point_search true [w4rpOld, w4rpSkip] [w4rpSkip] [] w4rpOld
    (by decide) (by decide) (by decide)

/-- Effects that are neither the `vssadmin` invocation nor the final
"key not found" report. -/
def benignRP (e : Effect) : Bool :=
  !(e == Effect.runVssAdmin) && !(e == Effect.print Msg.keyNotFoundAnywhere)

/-- Effects that are not the final "key not found" report. -/
def notKNFB (e : Effect) : Bool :=
  !(e == Effect.print Msg.keyNotFoundAnywhere)

/-- Predicate `benignRP` is stronger than `notKNFB`. -/
theorem benign_imp_notKNF (e : Effect) (h : benignRP e = true) : notKNFB e = true := by
  rw [benignRP, Bool.and_eq_true] at h
  exact h.2

/-- Lifting `benign_imp_notKNF` over a list. -/
theorem all_benign_imp_notKNF (es : List Effect) (h : es.all benignRP = true) :
    es.all notKNFB = true := by
  rw [List.all_eq_true] at h ⊢
  exact fun e he => benign_imp_notKNF e (h e he)

/-- A list of benign effects does not contain the `vssadmin` call. -/
theorem not_mem_vss_of_all_benign (es : List Effect) (h : es.all benignRP = true) :
    Effect.runVssAdmin ∉ es := by
  intro hm
  have := List.all_eq_true.mp h _ hm
  simp [benignRP] at this

/-- A list of `notKNFB` effects does not contain the final report. -/
theorem not_mem_knf_of_all (es : List Effect) (h : es.all notKNFB = true) :
    Effect.print Msg.keyNotFoundAnywhere ∉ es := by
  intro hm
  have := List.all_eq_true.mp h _ hm
  simp [notKNFB] at this

/-- Effects of `modify_hive_value` are at most a `SetValueEx`. -/
theorem modify_all_benign (sim : Bool) (hive : Option Vals) :
    ((modify_hive_value sim hive).2).all benignRP = true := by
  cases hive with
  | none => rfl
  | some vals =>
    cases hl : lookupVal vals OLD_VALUE_NAME with
    | none => simp [modify_hive_value, hl]
    | some p =>
      cases p with
      | mk vt v => cases sim <;> simp [modify_hive_value, hl, benignRP]

/-- Effects of `export_and_save` are exports, writes, imports and prints only. -/
theorem export_all_benign (sim ok : Bool) (txt : Str) :
    ((export_and_save sim ok txt).2).all benignRP = true := by
  cases ok <;> cases sim <;> simp [export_and_save, benignRP]

/-- Effects of `backup_live_hkcu_key` are an export and a print. -/
theorem backup_all_benign (ok : Bool) :
    (backup_live_hkcu_key ok).all benignRP = true := by
  cases ok <;> simp [backup_live_hkcu_key, benignRP]

/-- Effects of `process_regfile` are backups, a write, an import and prints. -/
theorem process_all_benign (sim isFile : Bool) (data : Str) (lb : Bool) :
    ((process_regfile sim isFile data lb).2).all benignRP = true := by
  by_cases hf : isFile = true
  · by_cases ho : occursB HKCU_KEY_LINE data = true
    · cases sim <;>
        simp [process_regfile, hf, ho, List.all_append, backup_all_benign, benignRP]
    · simp [process_regfile, hf, ho, benignRP]
  · simp [process_regfile, hf, benignRP]

/-- The cleanup loop only removes files. -/
theorem cleanup_all_benign (w : World) :
    (cleanupEffects w).all benignRP = true := by
  cases hs : w.snapshotExportLeft <;> cases ho : w.outputLeft <;>
    simp [cleanupEffects, hs, ho, benignRP]

/-- The skip prints of the cutoff filter are benign. -/
theorem skipPrints_all_benign (rps : List RPDir) :
    ((rps.filter (fun rp => CUTOFF_EPOCH ≤ rp.mtime)).map
      (fun rp => Effect.print (Msg.skippingRP rp.mtime))).all benignRP = true := by
  rw [List.all_eq_true]
  intro e he
  rcases List.mem_map.mp he with ⟨rp, _, rfl⟩
  simp [benignRP]

/-- The restore-point loop's effects are benign. -/
theorem rpLoop_all_benign (sim : Bool) : ∀ l : List RPDir,
    ((rpLoop sim l).2).all benignRP = true := by
  intro l
  induction l with
  | nil => simp [rpLoop, benignRP]
  | cons rp rest ih =>
    cases hhf : rp.hasHiveFile with
    | false => simpa [rpLoop, hhf] using ih
    | true =>
      cases hlo : rp.loadOk with
      | false => simp [rpLoop, hhf, hlo, List.all_append, ih, benignRP]
      | true =>
        by_cases hm : (modify_hive_value sim rp.vals).1 = true
        · simp [rpLoop, hhf, hlo, hm, List.all_append, modify_all_benign,
            export_all_benign, benignRP]
        · simp [rpLoop, hhf, hlo, hm, List.all_append, ih, modify_all_benign, benignRP]

/-- Effects of `search_old_restore_points` are benign only. -/
theorem searchRP_all_benign (sim : Bool) (rps : List RPDir) :
    ((search_old_restore_points sim rps).2).all benignRP = true := by
  by_cases he : (rps_sorted rps).isEmpty = true
  · simp [search_old_restore_points, he, List.all_append, skipPrints_all_benign, benignRP]
  · simp [search_old_restore_points, he, List.all_append, skipPrints_all_benign,
      rpLoop_all_benign, benignRP]

/-- One VSS parsing step prints only warnings and debug lines. -/
theorem vssStep_all_notKNF (parse : Str → Option Int) (cur : VssCur) (raw : Str) :
    ((vssStep parse cur raw).2.2).all notKNFB = true := by
  unfold vssStep
  by_cases h1 : SCID_MARK.isPrefixOf (pyStrip raw) = true
  · simp [h1]
  · simp only [h1, Bool.false_eq_true, if_false]
    by_cases h2 : occursB ACT_MARK (pyStrip raw) = true
    · simp only [h2, if_true]
      cases hp : parse (actField (pyStrip raw)) <;> simp [hp, notKNFB]
    · simp only [h2, Bool.false_eq_true, if_false]
      by_cases h3 : SCV_MARK.isPrefixOf (pyStrip raw) = true
      · simp only [h3, if_true]
        rcases hct : cur.ctime with _ | ct
        · simp [hct]
        · cases ct with
          | none => simp [hct]
          | some t => simp [hct, notKNFB]
      · simp [h3]

/-- The VSS parsing run never prints the final report. -/
theorem vssRun_all_notKNF (parse : Str → Option Int) : ∀ (lines : List Str) (cur : VssCur),
    ((vssRun parse cur lines).2).all notKNFB = true := by
  intro lines
  induction lines with
  | nil => intro cur; rfl
  | cons raw rest ih =>
    intro cur
    simp [vssRun, List.all_append, vssStep_all_notKNF, ih]

/-- Listing via `list_vss_snapshots_before_cutoff` never prints the final report. -/
theorem listvss_all_notKNF (parse : Str → Option Int) (stdout : Str) :
    ((list_vss_snapshots_before_cutoff parse stdout).2).all notKNFB = true := by
  unfold list_vss_snapshots_before_cutoff
  by_cases he : ((vssRun parse vssInit (splitlines stdout)).1).isEmpty = true <;>
    simp [he, List.all_append, vssRun_all_notKNF, notKNFB]

/-- The VSS shadow loop never prints the final report. -/
theorem vssLoop_all_notKNF (sim : Bool) (info : Str → ShadowW) : ∀ l : List Str,
    ((vssLoop sim info l).2).all notKNFB = true := by
  intro l
  induction l with
  | nil => rfl
  | cons shadow rest ih =>
    by_cases hn : (info shadow).ntuserExists = true
    · by_cases hl : (info shadow).loadOk = true
      · by_cases hm : (modify_hive_value sim (info shadow).vals).1 = true
        · simp [vssLoop, hn, hl, hm, List.all_append, notKNFB,
            all_benign_imp_notKNF _ (modify_all_benign sim (info shadow).vals),
            all_benign_imp_notKNF _ (export_all_benign sim (info shadow).exportOk
              (info shadow).exportText)]
        · simp [vssLoop, hn, hl, hm, List.all_append, ih, notKNFB,
            all_benign_imp_notKNF _ (modify_all_benign sim (info shadow).vals)]
      · simp [vssLoop, hn, hl, List.all_append, ih, notKNFB]
    · simpa [vssLoop, hn] using ih

/-- Searching via `search_vss_snapshots` never prints the final report. -/
theorem searchVSS_all_notKNF (sim : Bool) (parse : Str → Option Int) (stdout : Str)
    (info : Str → ShadowW) :
    ((search_vss_snapshots sim parse stdout info).2).all notKNFB = true := by
  unfold search_vss_snapshots
  by_cases he : ((list_vss_snapshots_before_cutoff parse stdout).1).isEmpty = true
  · simp [he, listvss_all_notKNF]
  · by_cases hf : (vssLoop sim info (list_vss_snapshots_before_cutoff parse stdout).1).1 = true <;>
      simp [he, hf, List.all_append, listvss_all_notKNF, vssLoop_all_notKNF, notKNFB]

/-- If the backup-then-search tail ran `vssadmin`, the restore-point
search had returned `False`. -/
theorem mainSearchPart_vss_mem (w : World)
    (hm : Effect.runVssAdmin ∈ mainSearchPart w) :
    (search_old_restore_points (simOf w.mode) w.rps).1 = false := by
  unfold mainSearchPart at hm
  rcases List.mem_append.mp hm with h | h
  · exact absurd h (not_mem_vss_of_all_benign _ (backup_all_benign _))
  · by_cases hs1 : (search_old_restore_points (simOf w.mode) w.rps).1 = true
    · rw [if_pos hs1] at h
      exact absurd h (not_mem_vss_of_all_benign _ (searchRP_all_benign _ _))
    · simpa using hs1

/-- If the backup-then-search tail printed the final report, both searches
had returned `False`. -/
theorem mainSearchPart_knf_mem (w : World)
    (hm : Effect.print Msg.keyNotFoundAnywhere ∈ mainSearchPart w) :
    (search_old_restore_points (simOf w.mode) w.rps).1 = false
    ∧ (search_vss_snapshots (simOf w.mode) w.parseDate w.vssStdout w.shadowInfo).1 = false := by
  unfold mainSearchPart at hm
  rcases List.mem_append.mp hm with h | h
  · exact absurd h
      (not_mem_knf_of_all _ (all_benign_imp_notKNF _ (backup_all_benign _)))
  · by_cases hs1 : (search_old_restore_points (simOf w.mode) w.rps).1 = true
    · rw [if_pos hs1] at h
      exact absurd h
        (not_mem_knf_of_all _ (all_benign_imp_notKNF _ (searchRP_all_benign _ _)))
    · rw [if_neg hs1] at h
      rcases List.mem_append.mp h with h' | h'
      · exact absurd h'
          (not_mem_knf_of_all _ (all_benign_imp_notKNF _ (searchRP_all_benign _ _)))
      · rcases List.mem_append.mp h' with h'' | h''
        · exact absurd h'' (not_mem_knf_of_all _ (searchVSS_all_notKNF _ _ _ _))
        · by_cases hs2 : (search_vss_snapshots (simOf w.mode) w.parseDate w.vssStdout
              w.shadowInfo).1 = true
          · rw [if_pos hs2] at h''
            simp at h''
          · exact ⟨by simpa using hs1, by simpa using hs2⟩

/-- Propagating `mainSearchPart_vss_mem` through the `--regfile`
branch. -/
theorem mainWithSid_vss_mem (w : World)
    (hm : Effect.runVssAdmin ∈ mainWithSid w) :
    (search_old_restore_points (simOf w.mode) w.rps).1 = false := by
  unfold mainWithSid at hm
  cases hr : w.regfileArg with
  | none =>
    rw [hr] at hm
    exact mainSearchPart_vss_mem w hm
  | some rf =>
    rw [hr] at hm
    dsimp only at hm
    by_cases hp : (process_regfile (simOf w.mode) rf.isFile rf.data w.liveBackupOk).1 = true
    · rw [if_pos hp] at hm
      exact absurd hm (not_mem_vss_of_all_benign _ (process_all_benign _ _ _ _))
    · rw [if_neg hp] at hm
      rcases List.mem_append.mp hm with h | h
      · exact absurd h (not_mem_vss_of_all_benign _ (process_all_benign _ _ _ _))
      · exact mainSearchPart_vss_mem w h

/-- Propagating `mainSearchPart_knf_mem` through the `--regfile`
branch. -/
theorem mainWithSid_knf_mem (w : World)
    (hm : Effect.print Msg.keyNotFoundAnywhere ∈ mainWithSid w) :
    (search_old_restore_points (simOf w.mode) w.rps).1 = false
    ∧ (search_vss_snapshots (simOf w.mode) w.parseDate w.vssStdout w.shadowInfo).1 = false := by
  unfold mainWithSid at hm
  cases hr : w.regfileArg with
  | none =>
    rw [hr] at hm
    exact mainSearchPart_knf_mem w hm
  | some rf =>
    rw [hr] at hm
    dsimp only at hm
    by_cases hp : (process_regfile (simOf w.mode) rf.isFile rf.data w.liveBackupOk).1 = true
    · rw [if_pos hp] at hm
      exact absurd hm
        (not_mem_knf_of_all _ (all_benign_imp_notKNF _ (process_all_benign _ _ _ _)))
    · rw [if_neg hp] at hm
      rcases List.mem_append.mp hm with h | h
      · exact absurd h
          (not_mem_knf_of_all _ (all_benign_imp_notKNF _ (process_all_benign _ _ _ _)))
      · exact mainSearchPart_knf_mem w h

/-- The cleanup, mode print and `whoami` preamble of `main` is benign. -/
theorem mainPre_all_benign (w : World) :
    ((cleanupEffects w ++ [Effect.print (Msg.runningMode (!simOf w.mode))]
      ++ [Effect.runWhoami]).all benignRP) = true := by
  simp [List.all_append, cleanup_all_benign w, benignRP]

/-- Claim C6: `main` tries the restore points before the VSS shadows — the
`vssadmin` call (the first effect of `search_vss_snapshots`) appears in
the trace only when `search_old_restore_points` returned `False`, and the
final "key not found" report appears only when both searches returned
`False`. -/
theorem C6_search_order (w : World) :
    (Effect.runVssAdmin ∈ mainModel w →
      (search_old_restore_points (simOf w.mode) w.rps).1 = false)
    ∧ (Effect.print Msg.keyNotFoundAnywhere ∈ mainModel w →
      (search_old_restore_points (simOf w.mode) w.rps).1 = false
      ∧ (search_vss_snapshots (simOf w.mode) w.parseDate w.vssStdout w.shadowInfo).1
          = false) := by
  by_cases hos : w.osIsNt = true
  · by_cases hadm : is_admin w.adminCallOk w.adminRet = true
    · cases hsid : w.sid with
      | none =>
        constructor
        · intro hm
          simp only [mainModel, hos, hadm, hsid, Bool.not_true, Bool.false_eq_true,
            if_false] at hm
          rcases List.mem_append.mp hm with h | h
          · exact absurd h (not_mem_vss_of_all_benign _ (mainPre_all_benign w))
          · simp at h
        · intro hm
          simp only [mainModel, hos, hadm, hsid, Bool.not_true, Bool.false_eq_true,
            if_false] at hm
          rcases List.mem_append.mp hm with h | h
          · exact absurd h
              (not_mem_knf_of_all _ (all_benign_imp_notKNF _ (mainPre_all_benign w)))
          · simp at h
      | some sid =>
        constructor
        · intro hm
          simp only [mainModel, hos, hadm, hsid, Bool.not_true, Bool.false_eq_true,
            if_false] at hm
          rcases List.mem_append.mp hm with h | h
          · exact absurd h (not_mem_vss_of_all_benign _ (mainPre_all_benign w))
          · exact mainWithSid_vss_mem w h
        · intro hm
          simp only [mainModel, hos, hadm, hsid, Bool.not_true, Bool.false_eq_true,
            if_false] at hm
          rcases List.mem_append.mp hm with h | h
          · exact absurd h
              (not_mem_knf_of_all _ (all_benign_imp_notKNF _ (mainPre_all_benign w)))
          · exact mainWithSid_knf_mem w h
    · constructor <;> intro hm <;> simp [mainModel, hos, hadm] at hm
  · constructor <;> intro hm <;> simp [mainModel, hos] at hm

/-- Witness for C6: a world where both searches fail — the trace holds
both the `vssadmin` call and the final report, and the theorem yields both
`False` results. -/
theorem C6_search_order_witness :
    Effect.runVssAdmin ∈ mainModel sampleWorld
    ∧ Effect.print Msg.keyNotFoundAnywhere ∈ mainModel sampleWorld
    ∧ (search_old_restore_points (simOf sampleWorld.mode) sampleWorld.rps).1 = false
    ∧ (search_vss_snapshots (simOf sampleWorld.mode) sampleWorld.parseDate
        sampleWorld.vssStdout sampleWorld.shadowInfo).1 = false :=
  ⟨by decide, by decide,
   (C6_search_order sampleWorld).1 (by decide),
   ((C6_search_order sampleWorld).2 (by decide)).2⟩
